import Mathlib

/-!
Shallow embedding of the `business_rules` engine (`business_rules/engine.py`)
into Lean 4, together with theorems settling the frozen claims about it.

Modelling conventions:
* Python values appearing in rules, parameter dicts, variable-handler results
  and action return values are modelled by the inductive `RawVal`.
* Python dicts are modelled as insertion-ordered association lists (`PDict`),
  with `pyUpdate` implementing `dict.update` semantics: an existing key keeps
  its position and gets the new value, a new key is appended.
* Python exceptions raised/propagated by the engine are modelled by `PyErr`.
* Side effects relevant to the claims are made explicit: evaluation returns,
  next to the `Except` result, the ordered list of variable-handler
  invocations (`trace`), and `do_actions` additionally returns the post-state
  of the action list (because `params.update(override_params)` mutates an
  the params dict of an action in place).
-/

/-- A Python value, as it appears in rule dicts, handler results and params. -/
inductive RawVal where
  | vnone
  | vbool (b : Bool)
  | vint (n : Int)
  | vstr (s : String)
  | vlist (xs : List RawVal)
  | vtuple (xs : List RawVal)
  | vdict (d : List (String × RawVal))
deriving Repr

/-- A Python dict with string keys, as an insertion-ordered association list. -/
abbrev PDict := List (String × RawVal)

/-- Python truthiness (`bool(x)`) for the modelled values. -/
def RawVal.truthy : RawVal → Bool
  | .vnone => false
  | .vbool b => b
  | .vint n => n != 0
  | .vstr s => !s.isEmpty
  | .vlist xs => !xs.isEmpty
  | .vtuple xs => !xs.isEmpty
  | .vdict d => !d.isEmpty

/-- Setting a single key, as Python `d[k] = v`: an existing key keeps its
position and is given the new value, a new key is appended at the end. -/
def setKey : PDict → String → RawVal → PDict
  | [], k, v => [(k, v)]
  | p :: rest, k, v => if p.1 == k then (k, v) :: rest else p :: setKey rest k v

/-- Python `d.update(e)` / `\x7b**d, **e\x7d`: fold the entries of `e` into `d`
left to right, so `e` wins on key collision (right-biased shallow merge). -/
def pyUpdate (d e : PDict) : PDict :=
  e.foldl (fun acc p => setKey acc p.1 p.2) d

/-- Python `d.get(k)`: the value at the first (for well-formed dicts, only)
occurrence of key `k`. -/
def PDict.get? (d : PDict) (k : String) : Option RawVal :=
  (d.find? (fun p => p.1 == k)).map (fun p => p.2)

/-- A Python exception as raised/propagated by the engine code paths. -/
inductive PyErr where
  | assertionError (msg : String)
  | typeError (msg : String)
  | keyError (msg : String)
  | valueError (msg : String)
deriving DecidableEq, Repr

/-- Modelled from the spec: `fields.py` is not under `src/`; the spec tags
no-input operators with a distinguished "no input" field-type marker, which
the schema-export integration test shows serialized as "none". Only the fact
that it differs from the `getattr` default `""` matters to the engine. -/
def FIELD_NO_INPUT : String := "none"

/-- A bound operator method on a typed-value instance, as used by
`_do_operator_comparison`: its `input_type` attribute (the `getattr` default
`""` stands for an absent attribute) and its behaviour when called with zero
arguments or with the one comparison literal. -/
structure OpMethod where
  input_type : String
  call0 : Except PyErr Bool
  call1 : RawVal → Except PyErr Bool

/-- An `operators.BaseType` instance: the wrapped raw value, the class name
(used in the undefined-operator message) and the named operator methods. -/
structure TypedValue where
  className : String
  raw : RawVal
  ops : String → Option OpMethod

/-- `engine._do_operator_comparison`: look the operator method up on the
typed value (a missing name resolves to a fallback that raises
AssertionError when called); if the method is declared no-input, call it
with zero arguments, otherwise with the comparison value. -/
def _do_operator_comparison (operator_type : TypedValue) (operator_name : String)
    (comparison_value : RawVal) : Except PyErr Bool :=
  match operator_type.ops operator_name with
  | none =>
      -- fallback accepts any arguments, so the call itself succeeds and the
      -- body raises; getattr of input_type on the fallback defaults to the empty string.
      .error (.assertionError ("Operator " ++ operator_name ++ " does not exist for type "
        ++ operator_type.className))
  | some method =>
      if method.input_type == FIELD_NO_INPUT then method.call0
      else method.call1 comparison_value

/-- A variable handler: a decorated method on the variables object. The
signature data (`requiredParams`, `optionalParams`, `acceptsKwargs`) governs
Python keyword-argument binding of `method(**params)`; `body` is the method
body on the bound params; `field_type` is the declared type wrapper of the method
applied to the raw result. -/
structure VarHandler where
  requiredParams : List String
  optionalParams : List String
  acceptsKwargs : Bool
  body : PDict → Except PyErr RawVal
  field_type : RawVal → TypedValue

/-- The caller-supplied variables object: its class name (used in the
undefined-variable message) and attribute lookup for handler methods. -/
structure Variables where
  className : String
  lookup : String → Option VarHandler

/-- Python keyword-argument binding for `method(**params)` against a
signature of the handler: an unexpected keyword or a missing required argument
raises TypeError before the body runs. (The precise CPython message and the
order of the two checks do not matter: both are TypeErrors and are mapped to
the same engine error.) -/
def bindKwargs (h : VarHandler) (pd : PDict) : Option String :=
  match (pd.find? (fun p => !(h.acceptsKwargs || h.requiredParams.contains p.1
      || h.optionalParams.contains p.1))) with
  | some p => some ("got an unexpected keyword argument " ++ p.1)
  | none =>
      match h.requiredParams.find? (fun r => (PDict.get? pd r).isNone) with
      | some r => some ("missing a required argument: " ++ r)
      | none => none

/-- `engine._get_variable_value_and_actions_params`, with the ordered list
of variable-handler body invocations returned alongside the result.
Faithful to the Python control flow:
* `method(**params)` unpacks `params` first, so a non-mapping `params`
  raises TypeError (caught and re-raised with the dict-type message) even
  before any binding — and even when the variable name is undefined;
* an undefined name resolves to the fallback, which accepts any kwargs and
  raises AssertionError (not caught by the TypeError/KeyError handlers);
* a binding failure (unexpected or missing keyword) is a TypeError and is
  re-raised with the dict-type message;
* a TypeError or KeyError raised by the handler body is re-raised with the
  corresponding message; other exceptions propagate unchanged;
* a tuple result is destructured as `(val, override_params)` — a tuple whose
  length is not 2 raises ValueError (uncaught) — and a bare result means no
  overrides; a falsy override object is replaced by the empty dict
  (`override_params or \x7b\x7d`), a truthy one is kept as is;
* the wrapped value is `method.field_type(val)`.
(Python str of KeyError/TypeError adds quoting around names; the
quoting is omitted here.) -/
def _get_variable_value_and_actions_params (defined_variables : Variables)
    (name : String) (params : RawVal) :
    Except PyErr (TypedValue × RawVal) × List String :=
  match params with
  | .vdict pd =>
      match defined_variables.lookup name with
      | none =>
          (.error (.assertionError ("Variable " ++ name ++ " is not defined in class "
            ++ defined_variables.className)), [])
      | some h =>
          match bindKwargs h pd with
          | some m =>
              (.error (.typeError ("Variable params object has to be of dict type! - " ++ m)), [])
          | none =>
              match h.body pd with
              | .error (.typeError m) =>
                  (.error (.typeError ("Variable params object has to be of dict type! - " ++ m)),
                    [name])
              | .error (.keyError m) =>
                  (.error (.keyError ("Expected params (" ++ m ++ ") were not provided!")), [name])
              | .error e => (.error e, [name])
              | .ok res =>
                  match res with
                  | .vtuple [v, ov] =>
                      (.ok (h.field_type v, if ov.truthy then ov else .vdict []), [name])
                  | .vtuple es =>
                      (.error (.valueError (if es.length < 2 then
                        "not enough values to unpack (expected 2, got "
                          ++ toString es.length ++ ")"
                        else ("too many values to unpack (expected 2)"))), [name])
                  | v => (.ok (h.field_type v, .vdict []), [name])
  | _ =>
      (.error (.typeError
        ("Variable params object has to be of dict type! - argument after ** must be a mapping")),
        [])

/-- The fields of a leaf condition dict, each `Option` because the Python
dict may lack the key (indexing a missing key raises KeyError). -/
structure LeafFields where
  name : Option String
  op : Option String
  value : Option RawVal
  params : Option RawVal
deriving Repr

/-- A condition node, mirroring the shape dispatch of
`check_conditions_recursively` on `list(conditions.keys())`:
* `all cs` / `any cs` — a dict whose ordered key list is exactly the
  one-element list of the key all (resp. any), with `cs` the children list;
* `mixed` — a dict whose key list is neither exactly the all singleton nor
  exactly the any singleton but still contains all or any (for example both keys
  present): the else-branch assertion fires, so no payload is observable;
* `leaf f` — any other dict, handled by `check_condition` via its
  `name`/`operator`/`value`/`params` keys. -/
inductive Cond where
  | all (children : List Cond)
  | any (children : List Cond)
  | mixed
  | leaf (f : LeafFields)

/-- `engine.check_condition`: read the name, operator and value keys of
the condition dict (KeyError on a missing key, in that order) and the
params key with an empty-dict default; resolve the variable; merge the returned
override object into the incoming accumulated overrides
(`override_params.update(params_update)` — a TypeError if the override
object is not a dict); then run the operator comparison. The second
component is the variable-invocation trace. -/
def check_condition (condition : LeafFields) (defined_variables : Variables)
    (override_params : PDict) : Except PyErr (Bool × PDict) × List String :=
  match condition.name with
  | none => (.error (.keyError ("name")), [])
  | some nm =>
      match condition.op with
      | none => (.error (.keyError ("operator")), [])
      | some opName =>
          match condition.value with
          | none => (.error (.keyError ("value")), [])
          | some value =>
              let params := condition.params.getD (.vdict [])
              match _get_variable_value_and_actions_params defined_variables nm params with
              | (.error e, tr) => (.error e, tr)
              | (.ok (operator_type, ovRaw), tr) =>
                  match ovRaw with
                  | .vdict d =>
                      let merged := pyUpdate override_params d
                      match _do_operator_comparison operator_type opName value with
                      | .error e => (.error e, tr)
                      | .ok b => (.ok (b, merged), tr)
                  | _ =>
                      -- `dict.update` on a non-dict override object raises
                      -- TypeError (handlers returning pair-iterables, which
                      -- `update` would also accept, are not modelled).
                      (.error (.typeError ("update argument must be a mapping")), tr)

mutual

/-- `engine.check_conditions_recursively`. The in-place accumulator
mutation of the Python code (`override_params.update(params_update)` on a
dict threaded through the recursion by aliasing) is rendered functionally:
each recursive call receives the current accumulated overrides and returns
its full merged override map, which the caller merges back with `pyUpdate`
(a no-op re-merge in the aliased case, with the same resulting value). -/
def check_conditions_recursively (conditions : Cond) (defined_variables : Variables)
    (override_params : PDict) : Except PyErr (Bool × PDict) × List String :=
  match conditions with
  | .all cs =>
      if cs.isEmpty then
        (.error (.assertionError ("assert len of all children at least 1")), [])
      else goAll cs defined_variables override_params
  | .any cs =>
      if cs.isEmpty then
        (.error (.assertionError ("assert len of any children at least 1")), [])
      else goAny cs defined_variables override_params
  | .mixed =>
      (.error (.assertionError ("assert not any in keys or all in keys")), [])
  | .leaf f => check_condition f defined_variables override_params

/-- The loop body over the children of an all node: recurse on the
child with the current accumulated overrides, merge the overrides returned
by the child into the accumulator regardless of the boolean result,
and return false as soon as a child is false; an exhausted loop returns
true with the accumulated overrides. -/
def goAll (cs : List Cond) (defined_variables : Variables) (override_params : PDict) :
    Except PyErr (Bool × PDict) × List String :=
  match cs with
  | [] => (.ok (true, override_params), [])
  | c :: rest =>
      match check_conditions_recursively c defined_variables override_params with
      | (.error e, tr) => (.error e, tr)
      | (.ok (conditions_met, params_update), tr) =>
          let acc := pyUpdate override_params params_update
          if conditions_met then
            match goAll rest defined_variables acc with
            | (r, tr2) => (r, tr ++ tr2)
          else (.ok (false, acc), tr)

/-- The loop body over the children of an any node: same accumulation
and merge discipline as `goAll`, returning true as soon as a child is true;
an exhausted loop returns false with the accumulated overrides. -/
def goAny (cs : List Cond) (defined_variables : Variables) (override_params : PDict) :
    Except PyErr (Bool × PDict) × List String :=
  match cs with
  | [] => (.ok (false, override_params), [])
  | c :: rest =>
      match check_conditions_recursively c defined_variables override_params with
      | (.error e, tr) => (.error e, tr)
      | (.ok (conditions_met, params_update), tr) =>
          let acc := pyUpdate override_params params_update
          if conditions_met then (.ok (true, acc), tr)
          else
            match goAny rest defined_variables acc with
            | (r, tr2) => (r, tr ++ tr2)

end

/-- One entry of the action list of a rule: a name and optional params.
An absent or empty params dict are both replaced by a fresh empty dict
by the or-else-empty idiom of `do_actions`. -/
structure ActionCall where
  name : String
  params : Option PDict
deriving Repr

/-- The caller-supplied actions object: class name (used in the
undefined-action message) and attribute lookup for action methods. Action
methods are modelled as total functions of their bound kwargs (the claims do
not involve action-side binding errors). -/
structure Actions where
  className : String
  lookup : String → Option (PDict → RawVal)

/-- The observable outcome of `do_actions`: the result, the ordered action
invocations with the exact params each method was called with, and the
post-state of the action list. The post-state records the in-place
mutation performed by `params.update(override_params)`: when
the declared params value is a truthy dict, `params` aliases that very
dict and the update mutates it (the chained-return merge
`\x7b**params, **returned_values\x7d` builds a fresh dict and does not). -/
structure DoActionsOut where
  result : Except PyErr Unit
  invocations : List (String × PDict)
  post : List ActionCall

/-- The `for action in actions` loop of `engine.do_actions`, carrying the
return value of the previous action (initially Python None). -/
def doActionsGo (defined_actions : Actions) (override_params : PDict) :
    List ActionCall → RawVal → DoActionsOut
  | [], _ => ⟨.ok (), [], []⟩
  | a :: rest, returned_values =>
      let base : PDict := match a.params with
        | some d => if d.isEmpty then [] else d
        | none => []
      let merged := pyUpdate base override_params
      let postA : ActionCall := match a.params with
        | some d => if d.isEmpty then a else ⟨a.name, some merged⟩
        | none => a
      let params := match returned_values with
        | .vdict d => if d.isEmpty then merged else pyUpdate merged d
        | _ => merged
      match defined_actions.lookup a.name with
      | none =>
          ⟨.error (.assertionError ("Action " ++ a.name ++ " is not defined in class "
            ++ defined_actions.className)), [], postA :: rest⟩
      | some method =>
          let ret := method params
          let out := doActionsGo defined_actions override_params rest ret
          ⟨out.result, (a.name, params) :: out.invocations, postA :: out.post⟩

/-- `engine.do_actions` (with `override_params or \x7b\x7d` already applied by
taking a `PDict`). -/
def do_actions (actions : List ActionCall) (defined_actions : Actions)
    (override_params : PDict) : DoActionsOut :=
  doActionsGo defined_actions override_params actions .vnone

/-- A business rule: `\x7bconditions, actions\x7d`. -/
structure Rule where
  conditions : Cond
  actions : List ActionCall

/-- The observable outcome of `run`: the boolean result (or propagated
error), the variable-invocation trace, the action invocations, and the
post-state of the rule. -/
structure RunOut where
  result : Except PyErr Bool
  varTrace : List String
  invocations : List (String × PDict)
  post : Rule

/-- `engine.run`: evaluate the conditions with an empty override
accumulator; on true, dispatch the actions with the collected overrides and
return true; on false, return false without dispatching. -/
def run (rule : Rule) (defined_variables : Variables) (defined_actions : Actions) : RunOut :=
  match check_conditions_recursively rule.conditions defined_variables [] with
  | (.error e, tr) => ⟨.error e, tr, [], rule⟩
  | (.ok (true, ov), tr) =>
      let aout := do_actions rule.actions defined_actions ov
      ⟨aout.result.map (fun _ => true), tr, aout.invocations, ⟨rule.conditions, aout.post⟩⟩
  | (.ok (false, _), tr) => ⟨.ok false, tr, [], rule⟩

/-- The observable outcome of `run_all`: the aggregated result and how many
rules were evaluated (how many `run` calls were made). -/
structure RunAllOut where
  result : Except PyErr Bool
  rulesEvaluated : Nat
deriving Repr

/-- The `for rule in rule_list` loop of `engine.run_all`, carrying
`rule_was_triggered`. -/
def runAllGo (defined_variables : Variables) (defined_actions : Actions)
    (stop_on_first_trigger : Bool) : List Rule → Bool → RunAllOut
  | [], rule_was_triggered => ⟨.ok rule_was_triggered, 0⟩
  | r :: rs, rule_was_triggered =>
      match (run r defined_variables defined_actions).result with
      | .error e => ⟨.error e, 1⟩
      | .ok true =>
          if stop_on_first_trigger then ⟨.ok true, 1⟩
          else
            let o := runAllGo defined_variables defined_actions stop_on_first_trigger rs true
            ⟨o.result, o.rulesEvaluated + 1⟩
      | .ok false =>
          let o := runAllGo defined_variables defined_actions stop_on_first_trigger rs
            rule_was_triggered
          ⟨o.result, o.rulesEvaluated + 1⟩

/-- `engine.run_all`. -/
def run_all (rule_list : List Rule) (defined_variables : Variables)
    (defined_actions : Actions) (stop_on_first_trigger : Bool) : RunAllOut :=
  runAllGo defined_variables defined_actions stop_on_first_trigger rule_list false

/-- Definition following the wording of the spec (section 4.5 Action Dispatcher),
written for comparison with `do_actions`: maintain a carried result
(initially absent); for each action in order compute the effective params
as the shallow merge of the declared params of the action with the override
params (override params winning), then, when the carried result is a
mapping, shallow-merge it on top (carried result winning); look the action
up (error when missing), invoke it with the effective params and carry its
return value. The dispatcher of the spec does not mutate the rule, so only the
result and the invocation sequence are produced. -/
def dispatchSpecGo (provider : Actions) (overrideParams : PDict) :
    List ActionCall → Option RawVal → Except PyErr Unit × List (String × PDict)
  | [], _ => (.ok (), [])
  | a :: rest, carriedResult =>
      let eff0 := pyUpdate (a.params.getD []) overrideParams
      let eff := match carriedResult with
        | some (.vdict d) => pyUpdate eff0 d
        | _ => eff0
      match provider.lookup a.name with
      | none =>
          (.error (.assertionError ("Action " ++ a.name ++ " is not defined in class "
            ++ provider.className)), [])
      | some handler =>
          let o := dispatchSpecGo provider overrideParams rest (some (handler eff))
          (o.1, (a.name, eff) :: o.2)

/-- Spec-side `dispatch` entry point. -/
def dispatchSpec (actions : List ActionCall) (provider : Actions)
    (overrideParams : PDict) : Except PyErr Unit × List (String × PDict) :=
  dispatchSpecGo provider overrideParams actions none

/-- The keys of a modelled dict, in insertion order. -/
def PDict.keys (d : PDict) : List String := d.map Prod.fst

theorem pyUpdate_nil_right (d : PDict) : pyUpdate d [] = d := rfl

theorem setKey_get?_self (d : PDict) (k : String) (v : RawVal) :
    PDict.get? (setKey d k v) k = some v := by
  induction d with
  | nil => simp [setKey, PDict.get?]
  | cons p rest ih =>
      by_cases hk : p.1 = k
      · simp [setKey, PDict.get?, hk]
      · simp [setKey, PDict.get?, hk, List.find?] at ih ⊢
        exact ih

theorem setKey_get?_ne (d : PDict) (k k' : String) (v : RawVal) (h : k' ≠ k) :
    PDict.get? (setKey d k v) k' = PDict.get? d k' := by
  have hkk : (k == k') = false := by simpa using Ne.symm h
  induction d with
  | nil => simp [setKey, PDict.get?, List.find?, hkk]
  | cons p rest ih =>
      by_cases hk : p.1 = k
      · have hpk' : (p.1 == k') = false := by simp [hk, Ne.symm h]
        simp [setKey, hk, PDict.get?, List.find?, hkk, hpk']
      · have hpk : (p.1 == k) = false := by simpa using hk
        by_cases hk' : p.1 = k'
        · have hpk' : (p.1 == k') = true := by simpa using hk'
          simp [setKey, hpk, PDict.get?, List.find?, hpk']
        · have hpk' : (p.1 == k') = false := by simpa using hk'
          simp [setKey, hk, PDict.get?, List.find?, hpk'] at ih ⊢
          exact ih

theorem pyUpdate_get?_not_mem (d e : PDict) (k : String) (h : k ∉ PDict.keys e) :
    PDict.get? (pyUpdate d e) k = PDict.get? d k := by
  induction e generalizing d with
  | nil => rfl
  | cons p rest ih =>
      simp only [PDict.keys, List.map_cons, List.mem_cons, not_or] at h
      have step : pyUpdate d (p :: rest) = pyUpdate (setKey d p.1 p.2) rest := rfl
      rw [step, ih _ (by simpa [PDict.keys] using h.2), setKey_get?_ne _ _ _ _ h.1]

theorem pyUpdate_get?_mem (d e : PDict) (k : String) (hmem : k ∈ PDict.keys e)
    (hnd : (PDict.keys e).Nodup) : PDict.get? (pyUpdate d e) k = PDict.get? e k := by
  induction e generalizing d with
  | nil => simp [PDict.keys] at hmem
  | cons p rest ih =>
      have step : pyUpdate d (p :: rest) = pyUpdate (setKey d p.1 p.2) rest := rfl
      simp only [PDict.keys, List.map_cons, List.nodup_cons] at hnd
      by_cases hk : k = p.1
      · have hnotin : k ∉ PDict.keys rest := by simpa [PDict.keys, hk] using hnd.1
        rw [step, pyUpdate_get?_not_mem _ _ _ hnotin, hk, setKey_get?_self]
        simp [PDict.get?, List.find?, hk]
      · have hmem' : k ∈ PDict.keys rest := by
          simp only [PDict.keys, List.map_cons, List.mem_cons] at hmem
          exact hmem.resolve_left hk
        have hpk : (p.1 == k) = false := by simpa using Ne.symm hk
        rw [step, ih _ hmem' hnd.2]
        simp [PDict.get?, List.find?, hpk]

theorem goAll_singleton (c : Cond) (dv : Variables) (ov : PDict) :
    goAll [c] dv ov =
      match check_conditions_recursively c dv ov with
      | (.error e, tr) => (.error e, tr)
      | (.ok (b, upd), tr) => (.ok (b, pyUpdate ov upd), tr) := by
  cases hc : check_conditions_recursively c dv ov with
  | mk r tr =>
      cases r with
      | error e => simp [goAll, hc]
      | ok p =>
          obtain ⟨met, upd⟩ := p
          cases met with
          | false => simp [goAll, hc]
          | true => simp [goAll, hc]

theorem goAll_append (cs cs' : List Cond) (dv : Variables) (ov : PDict) :
    goAll (cs ++ cs') dv ov =
      match goAll cs dv ov with
      | (.ok (true, acc), tr) =>
          (match goAll cs' dv acc with | (r, tr2) => (r, tr ++ tr2))
      | o => o := by
  induction cs generalizing ov with
  | nil => simp [goAll]
  | cons c rest ih =>
      cases hc : check_conditions_recursively c dv ov with
      | mk r tr =>
          cases r with
          | error e => simp [goAll, hc]
          | ok p =>
              obtain ⟨met, upd⟩ := p
              cases met with
              | false => simp [goAll, hc]
              | true =>
                  simp only [List.cons_append, goAll, hc, List.append_eq]
                  rw [ih]
                  cases hr : goAll rest dv (pyUpdate ov upd) with
                  | mk r2 tr2 =>
                      cases r2 with
                      | error e => simp
                      | ok q =>
                          obtain ⟨b2, acc2⟩ := q
                          cases b2 with
                          | false => simp
                          | true =>
                              cases hr' : goAll cs' dv acc2 with
                              | mk r3 tr3 => simp [List.append_assoc]

theorem goAny_singleton (c : Cond) (dv : Variables) (ov : PDict) :
    goAny [c] dv ov =
      match check_conditions_recursively c dv ov with
      | (.error e, tr) => (.error e, tr)
      | (.ok (b, upd), tr) => (.ok (b, pyUpdate ov upd), tr) := by
  cases hc : check_conditions_recursively c dv ov with
  | mk r tr =>
      cases r with
      | error e => simp [goAny, hc]
      | ok p =>
          obtain ⟨met, upd⟩ := p
          cases met with
          | false => simp [goAny, hc]
          | true => simp [goAny, hc]

theorem goAny_append (cs cs' : List Cond) (dv : Variables) (ov : PDict) :
    goAny (cs ++ cs') dv ov =
      match goAny cs dv ov with
      | (.ok (false, acc), tr) =>
          (match goAny cs' dv acc with | (r, tr2) => (r, tr ++ tr2))
      | o => o := by
  induction cs generalizing ov with
  | nil => simp [goAny]
  | cons c rest ih =>
      cases hc : check_conditions_recursively c dv ov with
      | mk r tr =>
          cases r with
          | error e => simp [goAny, hc]
          | ok p =>
              obtain ⟨met, upd⟩ := p
              cases met with
              | true => simp [goAny, hc]
              | false =>
                  simp only [List.cons_append, goAny, hc, List.append_eq]
                  rw [ih]
                  cases hr : goAny rest dv (pyUpdate ov upd) with
                  | mk r2 tr2 =>
                      cases r2 with
                      | error e => simp
                      | ok q =>
                          obtain ⟨b2, acc2⟩ := q
                          cases b2 with
                          | true => simp
                          | false =>
                              cases hr' : goAny cs' dv acc2 with
                              | mk r3 tr3 => simp [List.append_assoc]

/-- C1: for an ALL combinator node with non-empty children and any incoming
override map, `check_conditions_recursively` folds the children left to
right threading the accumulated overrides (first conjunct: non-empty
children dispatch to the loop). A single step merges the returned overrides
into the accumulator right-biased regardless of the boolean result (second
conjunct). The append decomposition (third conjunct) shows the loop is
left-to-right and short-circuits at the first false (or erroring) child:
the outcome — result, final overrides and variable-invocation trace alike —
of a prefix that ends false or in an error is the outcome on any extension,
so the remaining children are never evaluated; after an all-true prefix the
loop continues on the rest with the accumulated overrides, and an all-true
run returns true with the full accumulator. -/
theorem all_combinator_fold_short_circuit :
    (∀ c cs dv ov, check_conditions_recursively (Cond.all (c :: cs)) dv ov
      = goAll (c :: cs) dv ov)
    ∧ (∀ c dv ov, goAll [c] dv ov
      = match check_conditions_recursively c dv ov with
        | (.error e, tr) => (.error e, tr)
        | (.ok (b, upd), tr) => (.ok (b, pyUpdate ov upd), tr))
    ∧ (∀ cs cs' dv ov, goAll (cs ++ cs') dv ov
      = match goAll cs dv ov with
        | (.ok (true, acc), tr) =>
            (match goAll cs' dv acc with | (r, tr2) => (r, tr ++ tr2))
        | o => o) :=
  ⟨fun _ _ _ _ => rfl, goAll_singleton, goAll_append⟩

/-- C2: for an ANY combinator node with non-empty children and any incoming
override map, `check_conditions_recursively` folds the children left to
right with the same accumulation and merge discipline as ALL, and the
append decomposition shows it short-circuits at the first true (or
erroring) child — the remaining children are never evaluated (the result,
overrides and trace of an extension agree with those of the prefix) — while
after an all-false prefix the loop continues on the rest with the
accumulated overrides, an all-false run returning false with the full
accumulator. -/
theorem any_combinator_fold_short_circuit :
    (∀ c cs dv ov, check_conditions_recursively (Cond.any (c :: cs)) dv ov
      = goAny (c :: cs) dv ov)
    ∧ (∀ c dv ov, goAny [c] dv ov
      = match check_conditions_recursively c dv ov with
        | (.error e, tr) => (.error e, tr)
        | (.ok (b, upd), tr) => (.ok (b, pyUpdate ov upd), tr))
    ∧ (∀ cs cs' dv ov, goAny (cs ++ cs') dv ov
      = match goAny cs dv ov with
        | (.ok (false, acc), tr) =>
            (match goAny cs' dv acc with | (r, tr2) => (r, tr ++ tr2))
        | o => o) :=
  ⟨fun _ _ _ _ => rfl, goAny_singleton, goAny_append⟩

/-- C7: each structurally malformed condition node — empty children under
all or any, a key list containing all or any without being exactly one of
them (for example both present), or a leaf dict missing one of the
name/operator/value keys — makes evaluation fail with the corresponding
assertion or key error, and the empty variable-invocation trace shows that
no variable handler on the provider is invoked for that node. -/
theorem malformed_node_fails_before_resolution :
    (∀ dv ov, check_conditions_recursively (Cond.all []) dv ov
      = (.error (.assertionError ("assert len of all children at least 1")), []))
    ∧ (∀ dv ov, check_conditions_recursively (Cond.any []) dv ov
      = (.error (.assertionError ("assert len of any children at least 1")), []))
    ∧ (∀ dv ov, check_conditions_recursively Cond.mixed dv ov
      = (.error (.assertionError ("assert not any in keys or all in keys")), []))
    ∧ (∀ op v p dv ov, check_conditions_recursively (Cond.leaf ⟨none, op, v, p⟩) dv ov
      = (.error (.keyError ("name")), []))
    ∧ (∀ nm v p dv ov, check_conditions_recursively (Cond.leaf ⟨some nm, none, v, p⟩) dv ov
      = (.error (.keyError ("operator")), []))
    ∧ (∀ nm op p dv ov, check_conditions_recursively (Cond.leaf ⟨some nm, some op, none, p⟩) dv ov
      = (.error (.keyError ("value")), [])) :=
  ⟨fun _ _ => rfl, fun _ _ => rfl, fun _ _ => rfl,
   fun _ _ _ _ _ => rfl, fun _ _ _ _ _ => rfl, fun _ _ _ _ _ => rfl⟩

/-- Fixture: the no-input `is_true` operator method over a wrapped value
(test fixture; the real operator tables live in the out-of-scope
`operators.py`). -/
def opIsTrue (v : RawVal) : OpMethod :=
  ⟨FIELD_NO_INPUT, .ok v.truthy, fun _ => .ok v.truthy⟩

/-- Fixture: a boolean-style typed value whose only operator is the
no-input `is_true`. -/
def tvBool (v : RawVal) : TypedValue :=
  ⟨"BooleanType", v, fun s => if s == "is_true" then some (opIsTrue v) else none⟩

/-- Fixture: a one-input operator comparing the literal to five. -/
def opEqFive : OpMethod :=
  ⟨"numeric", .error (.typeError ("missing one required argument")),
    fun v => .ok (match v with | .vint n => decide (n = 5) | _ => false)⟩

/-- Fixture: a numeric-style typed value with the one-input operator. -/
def tvNum (v : RawVal) : TypedValue :=
  ⟨"NumericType", v, fun s => if s == "equal_to_five" then some opEqFive else none⟩

/-- Fixture: a parameterless handler returning `(bool, overrides)`. -/
def hBoolOv (b : Bool) (ov : PDict) : VarHandler :=
  ⟨[], [], false, fun _ => .ok (.vtuple [.vbool b, .vdict ov]), tvBool⟩

/-- Fixture: a parameterless handler returning a bare boolean. -/
def hBool (b : Bool) : VarHandler :=
  ⟨[], [], false, fun _ => .ok (.vbool b), tvBool⟩

/-- Fixture: a handler with one required parameter `x`. -/
def hFreq : VarHandler := ⟨["x"], [], false, fun _ => .ok (.vbool true), tvBool⟩

/-- Fixture: a parameterless handler whose body raises `KeyError: x`. -/
def hKey : VarHandler := ⟨[], [], false, fun _ => .error (.keyError ("x")), tvBool⟩

/-- Fixture: a handler returning a pair whose first element is itself a
tuple. -/
def hNest : VarHandler :=
  ⟨[], [], false, fun _ => .ok (.vtuple [.vtuple [.vint 1, .vint 2], .vdict []]), tvBool⟩

/-- Fixture: a handler returning a tuple of length three. -/
def hLong : VarHandler :=
  ⟨[], [], false, fun _ => .ok (.vtuple [.vbool true, .vdict [], .vnone]), tvBool⟩

/-- Fixture: a handler returning a pair with a falsy second element. -/
def hFalsy : VarHandler :=
  ⟨[], [], false, fun _ => .ok (.vtuple [.vbool true, .vnone]), tvBool⟩

/-- Fixture variables object used by the concrete instances below. -/
def exVars : Variables :=
  ⟨"SomeVariables", fun n =>
    if n == "va1" then some (hBoolOv true [("a", .vint 1)])
    else if n == "va2" then some (hBoolOv true [("a", .vint 2)])
    else if n == "vb2" then some (hBoolOv true [("b", .vint 2)])
    else if n == "vt" then some (hBool true)
    else if n == "vf" then some (hBool false)
    else if n == "freq" then some hFreq
    else if n == "fkey" then some hKey
    else if n == "fnest" then some hNest
    else if n == "flong" then some hLong
    else if n == "ffalsy" then some hFalsy
    else none⟩

/-- Fixture: a leaf condition checking `is_true` on the named variable. -/
def leafOf (n : String) : Cond := Cond.leaf ⟨some n, some ("is_true"), some .vnone, none⟩

/-- C3: override merging is a right-biased shallow merge in left-to-right
evaluation order. Pointwise (first two conjuncts): on a key of the
later map, `pyUpdate` yields the later map value; on other keys the
earlier map value is retained. At a leaf (third conjunct): whenever
variable resolution yields an override dict, the leaf merges it
right-biased into the incoming accumulated overrides. Concretely (last two
conjuncts): two leaves emitting, in order, `a=1` then `a=2` under `all`
leave `a=2`, and leaves emitting `a=1` then `b=2` retain both keys. -/
theorem override_merge_right_biased :
    (∀ d e k, k ∈ PDict.keys e → (PDict.keys e).Nodup →
        PDict.get? (pyUpdate d e) k = PDict.get? e k)
    ∧ (∀ d e k, k ∉ PDict.keys e → PDict.get? (pyUpdate d e) k = PDict.get? d k)
    ∧ (∀ nm opName v p dv inc tv de tr,
        _get_variable_value_and_actions_params dv nm (p.getD (.vdict []))
          = (.ok (tv, .vdict de), tr) →
        check_condition ⟨some nm, some opName, some v, p⟩ dv inc
          = ((_do_operator_comparison tv opName v).map (fun b => (b, pyUpdate inc de)), tr))
    ∧ check_conditions_recursively (Cond.all [leafOf ("va1"), leafOf ("va2")]) exVars []
        = (.ok (true, [("a", .vint 2)]), ["va1", "va2"])
    ∧ check_conditions_recursively (Cond.all [leafOf ("va1"), leafOf ("vb2")]) exVars []
        = (.ok (true, [("a", .vint 1), ("b", .vint 2)]), ["va1", "vb2"]) := by
  refine ⟨fun d e k h1 h2 => pyUpdate_get?_mem d e k h1 h2,
    fun d e k h => pyUpdate_get?_not_mem d e k h, ?_, rfl, rfl⟩
  intro nm opName v p dv inc tv de tr h
  simp only [check_condition, h]
  cases hcmp : _do_operator_comparison tv opName v <;> simp [Except.map, hcmp]

/-- Witness for the hypothesis-bearing conjuncts of
`override_merge_right_biased`, at concrete inputs. -/
theorem override_merge_right_biased_witness :
    ("a" ∈ PDict.keys [("a", RawVal.vint 2)] ∧ (PDict.keys [("a", RawVal.vint 2)]).Nodup
      ∧ PDict.get? (pyUpdate [("a", RawVal.vint 1)] [("a", RawVal.vint 2)]) "a"
          = PDict.get? [("a", RawVal.vint 2)] "a")
    ∧ ("a" ∉ PDict.keys [("b", RawVal.vint 2)]
      ∧ PDict.get? (pyUpdate [("a", RawVal.vint 1)] [("b", RawVal.vint 2)]) "a"
          = PDict.get? [("a", RawVal.vint 1)] "a")
    ∧ (_get_variable_value_and_actions_params exVars ("va1")
          ((none : Option RawVal).getD (.vdict []))
        = (.ok (tvBool (.vbool true), .vdict [("a", .vint 1)]), ["va1"])
      ∧ check_condition ⟨some ("va1"), some ("is_true"), some .vnone, none⟩ exVars [("z", .vint 7)]
        = ((_do_operator_comparison (tvBool (.vbool true)) "is_true" .vnone).map
            (fun b => (b, pyUpdate [("z", .vint 7)] [("a", .vint 1)])), ["va1"])) :=
  ⟨⟨by simp [PDict.keys], by simp [PDict.keys],
      override_merge_right_biased.1 [("a", .vint 1)] [("a", .vint 2)] "a"
        (by simp [PDict.keys]) (by simp [PDict.keys])⟩,
   ⟨by simp [PDict.keys],
      override_merge_right_biased.2.1 [("a", .vint 1)] [("b", .vint 2)] "a"
        (by simp [PDict.keys])⟩,
   ⟨rfl,
      override_merge_right_biased.2.2.1 ("va1") "is_true" .vnone none exVars
        [("z", .vint 7)] (tvBool (.vbool true)) [("a", .vint 1)] ["va1"] rfl⟩⟩

/-- C9: an operator method declared no-input (its `input_type` attribute
equal to the no-input marker) is invoked with zero arguments, so the
comparison result is the same for every supplied comparison literal; an
operator not declared no-input is invoked with exactly the comparison
literal as its one argument. -/
theorem no_input_operator_ignores_literal :
    (∀ t opName v w m, t.ops opName = some m → m.input_type = FIELD_NO_INPUT →
        _do_operator_comparison t opName v = m.call0
          ∧ _do_operator_comparison t opName v = _do_operator_comparison t opName w)
    ∧ (∀ t opName v m, t.ops opName = some m → m.input_type ≠ FIELD_NO_INPUT →
        _do_operator_comparison t opName v = m.call1 v) := by
  constructor
  · intro t opName v w m hm hni
    constructor <;> simp [_do_operator_comparison, hm, hni]
  · intro t opName v m hm hni
    simp [_do_operator_comparison, hm, beq_iff_eq, hni]

/-- Witness for `no_input_operator_ignores_literal` at concrete inputs:
the no-input `is_true` gives one result for two different literals, and
the one-input `equal_to_five` receives the literal. -/
theorem no_input_operator_ignores_literal_witness :
    ((tvBool (.vbool true)).ops ("is_true") = some (opIsTrue (.vbool true))
      ∧ (opIsTrue (.vbool true)).input_type = FIELD_NO_INPUT
      ∧ _do_operator_comparison (tvBool (.vbool true)) "is_true" (.vint 5)
          = (opIsTrue (.vbool true)).call0
      ∧ _do_operator_comparison (tvBool (.vbool true)) "is_true" (.vint 5)
          = _do_operator_comparison (tvBool (.vbool true)) "is_true" (.vstr ("x")))
    ∧ ((tvNum (.vint 5)).ops ("equal_to_five") = some opEqFive
      ∧ opEqFive.input_type ≠ FIELD_NO_INPUT
      ∧ _do_operator_comparison (tvNum (.vint 5)) "equal_to_five" (.vint 5)
          = opEqFive.call1 (.vint 5)) :=
  ⟨⟨rfl, rfl,
      (no_input_operator_ignores_literal.1 (tvBool (.vbool true)) "is_true"
        (.vint 5) (.vstr ("x")) (opIsTrue (.vbool true)) rfl rfl).1,
      (no_input_operator_ignores_literal.1 (tvBool (.vbool true)) "is_true"
        (.vint 5) (.vstr ("x")) (opIsTrue (.vbool true)) rfl rfl).2⟩,
   ⟨rfl, by simp [opEqFive, FIELD_NO_INPUT],
      no_input_operator_ignores_literal.2 (tvNum (.vint 5)) "equal_to_five"
        (.vint 5) opEqFive rfl (by simp [opEqFive, FIELD_NO_INPUT])⟩⟩

/-- Fixture actions object: handlers returning a dict, a list, a dict that
collides with the next declared param, and nothing. -/
def exActs : Actions :=
  ⟨"SomeActions", fun n =>
    if n == "ret_x9" then some (fun _ => .vdict [("x", .vint 9)])
    else if n == "ret_list" then some (fun _ => .vlist [.vint 1, .vint 2, .vint 3])
    else if n == "ret_p1new" then some (fun _ => .vdict [("param1", .vstr ("new"))])
    else if n == "act" then some (fun _ => .vnone)
    else none⟩

theorem dispatchSpecGo_none_eq_some_vnone (da : Actions) (ov : PDict)
    (acts : List ActionCall) :
    dispatchSpecGo da ov acts none = dispatchSpecGo da ov acts (some .vnone) := by
  cases acts with
  | nil => rfl
  | cons a rest => rfl

theorem doActionsGo_eq_dispatchSpecGo (da : Actions) (ov : PDict) :
    ∀ (acts : List ActionCall) (c : RawVal),
      ((doActionsGo da ov acts c).result, (doActionsGo da ov acts c).invocations)
        = dispatchSpecGo da ov acts (some c) := by
  intro acts
  induction acts with
  | nil => intro c; rfl
  | cons a rest ih =>
      intro c
      cases hl : da.lookup a.name with
      | none =>
          cases hp : a.params with
          | none => simp [doActionsGo, dispatchSpecGo, hl, hp]
          | some d0 => cases d0 <;> simp [doActionsGo, dispatchSpecGo, hl, hp]
      | some h =>
          cases hp : a.params with
          | none =>
              cases c with
              | vnone => simp [doActionsGo, dispatchSpecGo, hl, hp, ← ih]
              | vbool b => simp [doActionsGo, dispatchSpecGo, hl, hp, ← ih]
              | vint n => simp [doActionsGo, dispatchSpecGo, hl, hp, ← ih]
              | vstr s => simp [doActionsGo, dispatchSpecGo, hl, hp, ← ih]
              | vlist xs => simp [doActionsGo, dispatchSpecGo, hl, hp, ← ih]
              | vtuple xs => simp [doActionsGo, dispatchSpecGo, hl, hp, ← ih]
              | vdict d =>
                  cases d <;>
                    simp [doActionsGo, dispatchSpecGo, hl, hp, pyUpdate_nil_right, ← ih]
          | some d0 =>
              cases d0 with
              | nil =>
                  cases c with
                  | vnone => simp [doActionsGo, dispatchSpecGo, hl, hp, ← ih]
                  | vbool b => simp [doActionsGo, dispatchSpecGo, hl, hp, ← ih]
                  | vint n => simp [doActionsGo, dispatchSpecGo, hl, hp, ← ih]
                  | vstr s => simp [doActionsGo, dispatchSpecGo, hl, hp, ← ih]
                  | vlist xs => simp [doActionsGo, dispatchSpecGo, hl, hp, ← ih]
                  | vtuple xs => simp [doActionsGo, dispatchSpecGo, hl, hp, ← ih]
                  | vdict d =>
                      cases d <;>
                        simp [doActionsGo, dispatchSpecGo, hl, hp, pyUpdate_nil_right, ← ih]
              | cons q qs =>
                  cases c with
                  | vnone => simp [doActionsGo, dispatchSpecGo, hl, hp, ← ih]
                  | vbool b => simp [doActionsGo, dispatchSpecGo, hl, hp, ← ih]
                  | vint n => simp [doActionsGo, dispatchSpecGo, hl, hp, ← ih]
                  | vstr s => simp [doActionsGo, dispatchSpecGo, hl, hp, ← ih]
                  | vlist xs => simp [doActionsGo, dispatchSpecGo, hl, hp, ← ih]
                  | vtuple xs => simp [doActionsGo, dispatchSpecGo, hl, hp, ← ih]
                  | vdict d =>
                      cases d <;>
                        simp [doActionsGo, dispatchSpecGo, hl, hp, pyUpdate_nil_right, ← ih]

/-- C4: `do_actions` invokes the actions in order with parameters equal to
the declared params shallow-merged with the override params (override
winning), then — when the previous return value is a mapping — that return
value shallow-merged on top (previous return winning); a non-mapping
previous return is never merged. The first conjunct proves this by showing
the result and invocation sequence of `do_actions` coincide with
`dispatchSpec`, the dispatcher written from the spec wording; the remaining
conjuncts evaluate the concrete scenarios: a dict return chains into the
next call, a list return does not, a chained dict overrides the following
declared params, and override params override declared params. -/
theorem do_actions_merge_and_chaining :
    (∀ acts da ov, ((do_actions acts da ov).result, (do_actions acts da ov).invocations)
        = dispatchSpec acts da ov)
    ∧ (do_actions [⟨"ret_x9", none⟩, ⟨"act", some [("param1", .vstr ("foo"))]⟩] exActs
        []).invocations
        = [("ret_x9", []), ("act", [("param1", .vstr ("foo")), ("x", .vint 9)])]
    ∧ (do_actions [⟨"ret_list", none⟩, ⟨"act", some [("param1", .vstr ("baz"))]⟩] exActs
        []).invocations
        = [("ret_list", []), ("act", [("param1", .vstr ("baz"))])]
    ∧ (do_actions [⟨"ret_p1new", none⟩, ⟨"act", some [("param1", .vstr ("old"))]⟩] exActs
        []).invocations
        = [("ret_p1new", []), ("act", [("param1", .vstr ("new"))])]
    ∧ (do_actions [⟨"act", some [("param", .vstr ("foo"))]⟩] exActs
        [("param", .vstr ("bar"))]).invocations
        = [("act", [("param", .vstr ("bar"))])] := by
  refine ⟨fun acts da ov => ?_, rfl, rfl, rfl, rfl⟩
  rw [do_actions, dispatchSpec, dispatchSpecGo_none_eq_some_vnone]
  exact doActionsGo_eq_dispatchSpecGo da ov acts .vnone

/-- The in-place effect of `params.update(override_params)` on one action
dict: an action with a truthy (non-empty) params dict gets the override
params merged into it (override values winning); an absent or empty params
dict is replaced by a fresh dict, leaving the action unchanged. -/
def mutAct (ov : PDict) (a : ActionCall) : ActionCall :=
  match a.params with
  | some d => if d.isEmpty then a else ⟨a.name, some (pyUpdate d ov)⟩
  | none => a

theorem doActionsGo_post_empty_ov (da : Actions) :
    ∀ (acts : List ActionCall) (c : RawVal), (doActionsGo da [] acts c).post = acts := by
  intro acts
  induction acts with
  | nil => intro c; rfl
  | cons a rest ih =>
      intro c
      cases hl : da.lookup a.name with
      | none =>
          cases hp : a.params with
          | none => simp [doActionsGo, hl, hp]
          | some d =>
              cases d with
              | nil => simp [doActionsGo, hl, hp, pyUpdate_nil_right]
              | cons q qs =>
                  simp [doActionsGo, hl, hp, pyUpdate_nil_right]
                  rw [← hp]
      | some h =>
          cases hp : a.params with
          | none => simp [doActionsGo, hl, hp, ih]
          | some d =>
              cases d with
              | nil => simp [doActionsGo, hl, hp, pyUpdate_nil_right, ih]
              | cons q qs =>
                  simp [doActionsGo, hl, hp, pyUpdate_nil_right, ih]
                  rw [← hp]

theorem doActionsGo_post_of_ok (da : Actions) (ov : PDict) :
    ∀ (acts : List ActionCall) (c : RawVal),
      (doActionsGo da ov acts c).result = .ok () →
      (doActionsGo da ov acts c).post = acts.map (mutAct ov) := by
  intro acts
  induction acts with
  | nil => intro c _; rfl
  | cons a rest ih =>
      intro c hres
      cases hl : da.lookup a.name with
      | none => simp [doActionsGo, hl] at hres
      | some h =>
          simp only [doActionsGo, hl] at hres ⊢
          rw [List.map_cons, ih _ hres]
          cases hp : a.params with
          | none => simp [mutAct, hp]
          | some d => cases d <;> simp [mutAct, hp]

/-- Fixture rule: condition triggering with override a=1; one action with a
non-empty declared params dict. -/
def exRuleMut : Rule := ⟨leafOf ("va1"), [⟨"act", some [("b", .vint 2)]⟩]⟩

/-- Fixture rule whose condition evaluates false. -/
def exRuleF : Rule := ⟨leafOf ("vf"), [⟨"act", some [("b", .vint 2)]⟩]⟩

/-- Fixture rule that triggers and has no actions. -/
def exRuleT : Rule := ⟨leafOf ("vt"), []⟩

/-- C5 counterexample: running a triggered rule whose condition produced
non-empty overrides mutates the action params mapping in place
(`params.update(override_params)` aliases the action dict), so
the rule is not equal to its pre-call value. -/
theorem run_mutates_rule_counterexample :
    (run exRuleMut exVars exActs).result = .ok true
    ∧ exRuleMut.actions = [⟨"act", some [("b", .vint 2)]⟩]
    ∧ (run exRuleMut exVars exActs).post.actions
        = [⟨"act", some [("b", .vint 2), ("a", .vint 1)]⟩]
    ∧ (run exRuleMut exVars exActs).post.actions ≠ exRuleMut.actions := by
  refine ⟨rfl, rfl, rfl, ?_⟩
  intro h
  rw [show (run exRuleMut exVars exActs).post.actions
      = [(⟨"act", some [("b", .vint 2), ("a", .vint 1)]⟩ : ActionCall)] from rfl] at h
  simp [exRuleMut] at h

/-- C5 amended: the engine never mutates the conditions, and a rule that
does not trigger (or whose evaluation used empty overrides) is unchanged;
but on a triggered rule with successful dispatch the post-state action list
is the input list with each non-empty params mapping updated in place by
the override params (override values winning on collision). -/
theorem run_mutation_amended :
    (∀ rule dv da, (run rule dv da).post.conditions = rule.conditions)
    ∧ (∀ rule dv da, (run rule dv da).result = .ok false → (run rule dv da).post = rule)
    ∧ (∀ acts da c, (doActionsGo da [] acts c).post = acts)
    ∧ (∀ acts da ov, (do_actions acts da ov).result = .ok () →
        (do_actions acts da ov).post = acts.map (mutAct ov))
    ∧ (∀ rule dv da ov tr,
        check_conditions_recursively rule.conditions dv [] = (.ok (true, ov), tr) →
        (do_actions rule.actions da ov).result = .ok () →
        (run rule dv da).post = ⟨rule.conditions, rule.actions.map (mutAct ov)⟩) := by
  refine ⟨?_, ?_, fun acts da c => doActionsGo_post_empty_ov da acts c,
    fun acts da ov h => doActionsGo_post_of_ok da ov acts _ h, ?_⟩
  · intro rule dv da
    rcases h : check_conditions_recursively rule.conditions dv [] with ⟨r, tr⟩
    rcases r with e | ⟨b, ov⟩
    · simp [run, h]
    · cases b <;> simp [run, h]
  · intro rule dv da hres
    rcases h : check_conditions_recursively rule.conditions dv [] with ⟨r, tr⟩
    rcases r with e | ⟨b, ov⟩
    · simp [run, h] at hres
    · cases b
      · simp [run, h]
      · rcases hr : (do_actions rule.actions da ov).result with e | u
        · simp [run, h, do_actions] at hres
          simp [do_actions] at hr
          rw [hr] at hres
          simp [Except.map] at hres
        · simp [run, h, do_actions] at hres
          simp [do_actions] at hr
          rw [hr] at hres
          simp [Except.map] at hres
  · intro rule dv da ov tr hc hd
    have hpost := doActionsGo_post_of_ok da ov rule.actions .vnone (by simpa [do_actions] using hd)
    simp [run, hc, do_actions] at hpost ⊢
    exact hpost

/-- Witness for the hypothesis-bearing conjuncts of `run_mutation_amended`
at concrete inputs. -/
theorem run_mutation_amended_witness :
    ((run exRuleF exVars exActs).result = .ok false
      ∧ (run exRuleF exVars exActs).post = exRuleF)
    ∧ ((do_actions [⟨"act", some [("b", .vint 2)]⟩] exActs [("a", .vint 1)]).result = .ok ()
      ∧ (do_actions [⟨"act", some [("b", .vint 2)]⟩] exActs [("a", .vint 1)]).post
          = [(⟨"act", some [("b", .vint 2)]⟩ : ActionCall)].map (mutAct [("a", .vint 1)]))
    ∧ (check_conditions_recursively exRuleMut.conditions exVars []
          = (.ok (true, [("a", .vint 1)]), ["va1"])
      ∧ (do_actions exRuleMut.actions exActs [("a", .vint 1)]).result = .ok ()
      ∧ (run exRuleMut exVars exActs).post
          = ⟨exRuleMut.conditions, exRuleMut.actions.map (mutAct [("a", .vint 1)])⟩) :=
  ⟨⟨rfl, run_mutation_amended.2.1 exRuleF exVars exActs rfl⟩,
   ⟨rfl, run_mutation_amended.2.2.2.1 [⟨"act", some [("b", .vint 2)]⟩] exActs
      [("a", .vint 1)] rfl⟩,
   ⟨rfl, rfl, run_mutation_amended.2.2.2.2 exRuleMut exVars exActs
      [("a", .vint 1)] ["va1"] rfl rfl⟩⟩

/-- Whether an engine error is the MissingParam-style KeyError of the
`except KeyError` branch. -/
def isMissingParamKeyErr : Except PyErr (TypedValue × RawVal) → Bool
  | .error (.keyError _) => true
  | _ => false

/-- Whether a modelled Python value is a mapping. -/
def RawVal.isDict : RawVal → Bool
  | .vdict _ => true
  | _ => false

/-- C6 counterexample: a required named parameter absent from `params` does
not produce the MissingParam-style KeyError the claim describes — Python
reports a missing named argument as a TypeError, which the engine catches
and re-raises as the InvalidParams-style dict-type error. Here the handler
requires `x`, the params dict is empty, and the outcome is a TypeError. -/
theorem missing_required_param_counterexample :
    hFreq.requiredParams = ["x"]
    ∧ PDict.get? [] "x" = none
    ∧ _get_variable_value_and_actions_params exVars ("freq") (.vdict [])
        = (.error (.typeError
          "Variable params object has to be of dict type! - missing a required argument: x"), [])
    ∧ isMissingParamKeyErr
        (_get_variable_value_and_actions_params exVars ("freq") (.vdict [])).1 = false :=
  ⟨rfl, rfl, rfl, rfl⟩

/-- C6 amended: an undefined variable name fails with the AssertionError
naming the missing name and the provider class; a non-mapping params object
fails with the InvalidParams-style TypeError; a required named parameter
absent from params also fails with that same InvalidParams-style TypeError
(Python raises TypeError at keyword binding), while the MissingParam-style
KeyError naming the parameter occurs exactly when the handler body itself
raises KeyError. -/
theorem variable_resolution_error_contract :
    (∀ dv name pd, dv.lookup name = none →
        _get_variable_value_and_actions_params dv name (.vdict pd)
          = (.error (.assertionError ("Variable " ++ name ++ " is not defined in class "
              ++ dv.className)), []))
    ∧ (∀ dv name p, p.isDict = false →
        _get_variable_value_and_actions_params dv name p
          = (.error (.typeError
              ("Variable params object has to be of dict type! - argument after ** must be a mapping")),
            []))
    ∧ (∀ dv name h pd m, dv.lookup name = some h → bindKwargs h pd = some m →
        _get_variable_value_and_actions_params dv name (.vdict pd)
          = (.error (.typeError ("Variable params object has to be of dict type! - " ++ m)), []))
    ∧ (∀ dv name h pd m, dv.lookup name = some h → bindKwargs h pd = none →
        h.body pd = .error (.keyError m) →
        _get_variable_value_and_actions_params dv name (.vdict pd)
          = (.error (.keyError ("Expected params (" ++ m ++ ") were not provided!")), [name])) := by
  refine ⟨?_, ?_, ?_, ?_⟩
  · intro dv name pd h
    simp [_get_variable_value_and_actions_params, h]
  · intro dv name p h
    cases p <;> simp_all [RawVal.isDict, _get_variable_value_and_actions_params]
  · intro dv name h pd m h1 h2
    simp [_get_variable_value_and_actions_params, h1, h2]
  · intro dv name h pd m h1 h2 h3
    simp [_get_variable_value_and_actions_params, h1, h2, h3]

/-- Witness for `variable_resolution_error_contract` at concrete inputs:
an unknown name, a non-mapping params object, the one-required-parameter
handler with empty params, and the KeyError-raising handler. -/
theorem variable_resolution_error_contract_witness :
    (exVars.lookup ("nope") = none
      ∧ _get_variable_value_and_actions_params exVars ("nope") (.vdict [])
        = (.error (.assertionError
            "Variable nope is not defined in class SomeVariables"), []))
    ∧ ((RawVal.vint 3).isDict = false
      ∧ _get_variable_value_and_actions_params exVars ("vt") (.vint 3)
        = (.error (.typeError
            "Variable params object has to be of dict type! - argument after ** must be a mapping"),
          []))
    ∧ (exVars.lookup ("freq") = some hFreq
      ∧ bindKwargs hFreq [] = some ("missing a required argument: x")
      ∧ _get_variable_value_and_actions_params exVars ("freq") (.vdict [])
        = (.error (.typeError
            "Variable params object has to be of dict type! - missing a required argument: x"),
          []))
    ∧ (exVars.lookup ("fkey") = some hKey
      ∧ bindKwargs hKey [] = none
      ∧ hKey.body [] = .error (.keyError ("x"))
      ∧ _get_variable_value_and_actions_params exVars ("fkey") (.vdict [])
        = (.error (.keyError ("Expected params (x) were not provided!")), ["fkey"])) :=
  ⟨⟨rfl, variable_resolution_error_contract.1 exVars ("nope") [] rfl⟩,
   ⟨rfl, variable_resolution_error_contract.2.1 exVars ("vt") (.vint 3) rfl⟩,
   ⟨rfl, rfl, variable_resolution_error_contract.2.2.1 exVars ("freq") hFreq []
      "missing a required argument: x" rfl rfl⟩,
   ⟨rfl, rfl, rfl, variable_resolution_error_contract.2.2.2 exVars ("fkey") hKey [] "x"
      rfl rfl rfl⟩⟩

/-- Whether a modelled Python value is a tuple. -/
def RawVal.isTuple : RawVal → Bool
  | .vtuple _ => true
  | _ => false

/-- The raw value wrapped by a successful variable resolution. -/
def wrappedRaw : Except PyErr (TypedValue × RawVal) → Option RawVal
  | .ok (tv, _) => some tv.raw
  | _ => none

theorem value_ne_returned_tuple (v ov : RawVal) : v ≠ .vtuple [v, ov] := by
  intro h
  have hs : sizeOf v < sizeOf (RawVal.vtuple [v, ov]) := by
    simp only [RawVal.vtuple.sizeOf_spec, List.cons.sizeOf_spec, List.nil.sizeOf_spec]
    omega
  rw [← h] at hs
  exact lt_irrefl _ hs

/-- C10 counterexample: a handler returning a pair whose first element is
itself a tuple makes the engine wrap a raw tuple as the variable value, so
"a variable can never yield a raw tuple as its wrapped value" is false as
stated; only the returned tuple itself is never the wrapped value. -/
theorem wrapped_tuple_counterexample :
    hNest.body [] = .ok (.vtuple [.vtuple [.vint 1, .vint 2], .vdict []])
    ∧ wrappedRaw (_get_variable_value_and_actions_params exVars ("fnest") (.vdict [])).1
        = some (.vtuple [.vint 1, .vint 2])
    ∧ (RawVal.vtuple [.vint 1, .vint 2]).isTuple = true :=
  ⟨rfl, rfl, rfl⟩

/-- C10 amended: any tuple returned by a handler is destructured as a
`(rawValue, overrideParams)` pair: the wrapped value is the field-type
wrapper applied to the first element (never the returned tuple itself,
though that first element may itself be a tuple); a returned tuple whose
length is not exactly two fails resolution with ValueError; a falsy second
element yields the empty override map. -/
theorem tuple_result_destructuring :
    (∀ dv name h pd v ov, dv.lookup name = some h → bindKwargs h pd = none →
        h.body pd = .ok (.vtuple [v, ov]) →
        _get_variable_value_and_actions_params dv name (.vdict pd)
          = (.ok (h.field_type v, if ov.truthy then ov else .vdict []), [name]))
    ∧ (∀ dv name h pd es, dv.lookup name = some h → bindKwargs h pd = none →
        h.body pd = .ok (.vtuple es) → es.length ≠ 2 →
        _get_variable_value_and_actions_params dv name (.vdict pd)
          = (.error (.valueError (if es.length < 2 then
              "not enough values to unpack (expected 2, got " ++ toString es.length ++ ")"
              else ("too many values to unpack (expected 2)"))), [name]))
    ∧ (∀ dv name h pd v, dv.lookup name = some h → bindKwargs h pd = none →
        h.body pd = .ok (.vtuple [v, .vnone]) →
        _get_variable_value_and_actions_params dv name (.vdict pd)
          = (.ok (h.field_type v, .vdict []), [name]))
    ∧ (∀ v ov : RawVal, v ≠ .vtuple [v, ov]) := by
  refine ⟨?_, ?_, ?_, value_ne_returned_tuple⟩
  · intro dv name h pd v ov h1 h2 h3
    simp [_get_variable_value_and_actions_params, h1, h2, h3]
  · intro dv name h pd es h1 h2 h3 hlen
    rcases es with _ | ⟨a, _ | ⟨b, _ | ⟨c, rest⟩⟩⟩
    · simp [_get_variable_value_and_actions_params, h1, h2, h3]
    · simp [_get_variable_value_and_actions_params, h1, h2, h3]
    · exact absurd rfl hlen
    · simp [_get_variable_value_and_actions_params, h1, h2, h3]
  · intro dv name h pd v h1 h2 h3
    simp [_get_variable_value_and_actions_params, h1, h2, h3, RawVal.truthy]

/-- Witness for `tuple_result_destructuring` at concrete inputs: a pair
with a truthy dict second element, a length-three tuple, and a pair with a
falsy second element. -/
theorem tuple_result_destructuring_witness :
    (exVars.lookup ("va1") = some (hBoolOv true [("a", .vint 1)])
      ∧ bindKwargs (hBoolOv true [("a", .vint 1)]) [] = none
      ∧ (hBoolOv true [("a", .vint 1)]).body []
          = .ok (.vtuple [.vbool true, .vdict [("a", .vint 1)]])
      ∧ _get_variable_value_and_actions_params exVars ("va1") (.vdict [])
          = (.ok ((hBoolOv true [("a", .vint 1)]).field_type (.vbool true),
              if (RawVal.vdict [("a", .vint 1)]).truthy then .vdict [("a", .vint 1)]
              else .vdict []), ["va1"]))
    ∧ (exVars.lookup ("flong") = some hLong
      ∧ bindKwargs hLong [] = none
      ∧ hLong.body [] = .ok (.vtuple [.vbool true, .vdict [], .vnone])
      ∧ ([RawVal.vbool true, .vdict [], .vnone].length ≠ 2)
      ∧ _get_variable_value_and_actions_params exVars ("flong") (.vdict [])
          = (.error (.valueError (if ([RawVal.vbool true, .vdict [], .vnone].length) < 2 then
              "not enough values to unpack (expected 2, got "
                ++ toString ([RawVal.vbool true, .vdict [], .vnone].length) ++ ")"
              else ("too many values to unpack (expected 2)"))), ["flong"]))
    ∧ (exVars.lookup ("ffalsy") = some hFalsy
      ∧ bindKwargs hFalsy [] = none
      ∧ hFalsy.body [] = .ok (.vtuple [.vbool true, .vnone])
      ∧ _get_variable_value_and_actions_params exVars ("ffalsy") (.vdict [])
          = (.ok (hFalsy.field_type (.vbool true), .vdict []), ["ffalsy"])) :=
  ⟨⟨rfl, rfl, rfl,
      tuple_result_destructuring.1 exVars ("va1") (hBoolOv true [("a", .vint 1)]) []
        (.vbool true) (.vdict [("a", .vint 1)]) rfl rfl rfl⟩,
   ⟨rfl, rfl, rfl, by simp,
      tuple_result_destructuring.2.1 exVars ("flong") hLong []
        [.vbool true, .vdict [], .vnone] rfl rfl rfl (by simp)⟩,
   ⟨rfl, rfl, rfl,
      tuple_result_destructuring.2.2.1 exVars ("ffalsy") hFalsy [] (.vbool true)
        rfl rfl rfl⟩⟩

/-- Whether a run result is a successful trigger. -/
def isOkTrue : Except PyErr Bool → Bool
  | .ok true => true
  | _ => false

theorem runAllGo_acc_true (dv : Variables) (da : Actions) :
    ∀ rs : List Rule,
      (∀ r ∈ rs, (run r dv da).result = .ok true ∨ (run r dv da).result = .ok false) →
      runAllGo dv da false rs true = ⟨.ok true, rs.length⟩ := by
  intro rs
  induction rs with
  | nil => intro _; rfl
  | cons r rest ih =>
      intro hok
      have hrest := ih (fun x hx => hok x (List.mem_cons_of_mem r hx))
      rcases hok r (List.mem_cons_self r rest) with h | h
      · simp [runAllGo, h, hrest]
      · simp [runAllGo, h, hrest]

/-- C8: `run_all` evaluates rules in order. The step equation (second
conjunct) shows the loop structure; with `stop_on_first_trigger` a
triggering first rule stops the batch at exactly one evaluated rule (third
conjunct), while a non-triggering first rule of a two-rule batch leads to
exactly two evaluated rules (fourth conjunct); without the flag and with no
errors every rule is evaluated and the result is whether any rule
triggered (fifth conjunct). -/
theorem run_all_order_and_stop :
    (∀ dv da stop, run_all [] dv da stop = ⟨.ok false, 0⟩)
    ∧ (∀ r rs dv da stop, run_all (r :: rs) dv da stop
        = match (run r dv da).result with
          | .error e => ⟨.error e, 1⟩
          | .ok true =>
              if stop then ⟨.ok true, 1⟩
              else
                (let o := runAllGo dv da stop rs true
                 ⟨o.result, o.rulesEvaluated + 1⟩)
          | .ok false =>
              (let o := run_all rs dv da stop
               ⟨o.result, o.rulesEvaluated + 1⟩))
    ∧ (∀ r rs dv da, (run r dv da).result = .ok true →
        run_all (r :: rs) dv da true = ⟨.ok true, 1⟩)
    ∧ (∀ r1 r2 dv da, (run r1 dv da).result = .ok false →
        (run_all [r1, r2] dv da true).rulesEvaluated = 2)
    ∧ (∀ rs dv da,
        (∀ r ∈ rs, (run r dv da).result = .ok true ∨ (run r dv da).result = .ok false) →
        run_all rs dv da false
          = ⟨.ok (rs.any (fun r => isOkTrue (run r dv da).result)), rs.length⟩) := by
  refine ⟨fun _ _ _ => rfl, ?_, ?_, ?_, ?_⟩
  · intro r rs dv da stop
    rcases h : (run r dv da).result with e | b
    · simp [run_all, runAllGo, h]
    · cases b <;> simp [run_all, runAllGo, h]
  · intro r rs dv da h
    simp [run_all, runAllGo, h]
  · intro r1 r2 dv da h1
    rcases h2 : (run r2 dv da).result with e | b
    · simp [run_all, runAllGo, h1, h2]
    · cases b <;> simp [run_all, runAllGo, h1, h2]
  · intro rs dv da
    induction rs with
    | nil => intro _; rfl
    | cons r rest ih =>
        intro hok
        have hrest := fun x hx => hok x (List.mem_cons_of_mem r hx)
        rcases hok r (List.mem_cons_self r rest) with h | h
        · simp [run_all, runAllGo, h, runAllGo_acc_true dv da rest hrest, isOkTrue]
        · have := ih hrest
          simp only [run_all] at this
          simp [run_all, runAllGo, h, this, isOkTrue]

/-- Witness for the hypothesis-bearing conjuncts of `run_all_order_and_stop`
at concrete rules: a triggering first rule stops at one evaluation, a
non-triggering first rule of two leads to two evaluations, and without the
flag both rules are evaluated and the batch reports the trigger. -/
theorem run_all_order_and_stop_witness :
    ((run exRuleT exVars exActs).result = .ok true
      ∧ run_all [exRuleT, exRuleF] exVars exActs true = ⟨.ok true, 1⟩)
    ∧ ((run exRuleF exVars exActs).result = .ok false
      ∧ (run_all [exRuleF, exRuleT] exVars exActs true).rulesEvaluated = 2)
    ∧ ((run exRuleF exVars exActs).result = .ok false
      ∧ (run exRuleT exVars exActs).result = .ok true
      ∧ run_all [exRuleF, exRuleT] exVars exActs false
          = ⟨.ok ([exRuleF, exRuleT].any (fun r => isOkTrue (run r exVars exActs).result)),
              2⟩) :=
  ⟨⟨rfl, run_all_order_and_stop.2.2.1 exRuleT [exRuleF] exVars exActs rfl⟩,
   ⟨rfl, run_all_order_and_stop.2.2.2.1 exRuleF exRuleT exVars exActs rfl⟩,
   ⟨rfl, rfl, by
      have hyp : ∀ r ∈ [exRuleF, exRuleT], (run r exVars exActs).result = .ok true
          ∨ (run r exVars exActs).result = .ok false := by
        intro r hr
        rcases List.mem_cons.mp hr with rfl | hr2
        · right; rfl
        · rcases List.mem_cons.mp hr2 with rfl | hr3
          · left; rfl
          · exact absurd hr3 (List.not_mem_nil r)
      exact run_all_order_and_stop.2.2.2.2 [exRuleF, exRuleT] exVars exActs hyp⟩⟩
